import Mathlib

/-!
Shallow embedding of the VaultWeb file-storage service core:
the metadata repository (server/storage.ts, class DatabaseStorage),
the object-store adapter (services/s3Service.ts, S3StorageService and
LocalStorageService), the upload/lifecycle coordinator
(services/fileService.ts, class FileService) and the HTTP route handlers
(server/routes.ts, registerRoutes) that the verified claims refer to.

Database rows follow shared/schema.ts.  Timestamps are naturals
(milliseconds since the epoch), byte strings are lists of naturals, and
the fresh values the runtime generates (gen_random_uuid defaults,
crypto.randomUUID, Date.now) are passed in explicitly so that every
operation is a pure function of its inputs.
-/

namespace VaultWeb

/-- Timestamps, modelled as naturals (milliseconds since the epoch). -/
abbrev Timestamp := Nat

/-- Byte strings held by the object store, modelled as lists of byte values. -/
abbrev Bytes := List Nat

/-! ### Small string helpers shared by the embedding -/

/-- JavaScript truthiness of an optional string: null and the empty string are
falsy, every other string is truthy.  Used where the source branches on a
string with the conditional or the logical-or operator. -/
def jsTruthy : Option String → Bool
  | none => false
  | some s => s ≠ ""

/-- JavaScript short-circuit normalisation of an optional string,
as in the source idiom folderId or-else null: the empty string collapses
to null. -/
def optNorm : Option String → Option String
  | some s => if s = "" then none else some s
  | none => none

/-- Lexicographic comparison of character lists by code point, the order the
repository's ORDER BY name clauses sort text with. -/
def charListLe : List Char → List Char → Bool
  | [], _ => true
  | _ :: _, [] => false
  | a :: as, b :: bs =>
      if a.toNat = b.toNat then charListLe as bs else decide (a.toNat < b.toNat)

/-- String comparison by code point, used to model SQL ascending text order. -/
def strLe (a b : String) : Bool := charListLe a.data b.data

/-- Descending order on nullable deleted-at timestamps (DESC puts NULLs
first), used to model ORDER BY deletedAt DESC in the trash queries. -/
def optDescLe (a b : Option Timestamp) : Bool :=
  match a, b with
  | none, _ => true
  | some _, none => false
  | some x, some y => decide (y ≤ x)

/-- Prefix test on character lists. -/
def startsWithCl : List Char → List Char → Bool
  | _, [] => true
  | [], _ :: _ => false
  | a :: as, b :: bs => a = b && startsWithCl as bs

/-- Substring test on character lists, modelling a SQL LIKE percent-query-percent
match on the name column. -/
def containsSub : List Char → List Char → Bool
  | [], needle => needle.isEmpty
  | h :: t, needle => startsWithCl (h :: t) needle || containsSub t needle

/-- Substring containment on strings. -/
def strContains (haystack needle : String) : Bool :=
  containsSub haystack.data needle.data

/-- ASCII lower-casing, modelling JavaScript toLowerCase on the extension
strings that occur in the MIME table lookup. -/
def asciiLower (s : String) : String :=
  String.mk (s.data.map (fun c =>
    if 65 ≤ c.toNat ∧ c.toNat ≤ 90 then Char.ofNat (c.toNat + 32) else c))

/-- Trailing path component of a character list (the part after the last
slash), as Node's path functions compute it. -/
def afterLastSlash (l : List Char) : List Char :=
  l.foldl (fun acc c => if c = '/' then [] else acc ++ [c]) []

/-- Index of the last dot in a character list, if any. -/
def lastDotIdx (l : List Char) : Option Nat :=
  ((List.range l.length).filter (fun i => l.get? i = some '.')).getLast?

/-- Node path.extname: the suffix of the final path component from its last
dot, the empty string when there is no dot or the only dot is leading. -/
def extname (s : String) : String :=
  let base := afterLastSlash s.data
  match lastDotIdx base with
  | none => ""
  | some 0 => ""
  | some i => String.mk (base.drop i)

/-- Character-list suffix test. -/
def endsWithCl (l suf : List Char) : Bool :=
  suf.length ≤ l.length && l.drop (l.length - suf.length) == suf

/-- Node path.basename with an extension argument: the final path component
with the extension suffix stripped when it is a proper suffix. -/
def basenameWithoutExt (s ext : String) : String :=
  let base := afterLastSlash s.data
  if ext ≠ "" && endsWithCl base ext.data && base ≠ ext.data then
    String.mk (base.take (base.length - ext.length))
  else
    String.mk base

/-- Two-digit zero padding of day and month numbers, as in the source's
padStart of the date components of a storage key. -/
def pad2 (n : Nat) : String :=
  if n < 10 then "0" ++ toString n else toString n

/-! ### Data model (shared/schema.ts) -/

/-- Row of the files table.  The id, createdAt and updatedAt columns are
filled by database defaults, which the embedding receives as explicit
arguments. -/
structure File where
  id : String
  name : String
  ext : String
  mime : String
  size : Nat
  storageKey : String
  checksum : Option String
  ownerId : String
  folderId : Option String
  createdAt : Timestamp
  updatedAt : Timestamp
  deletedAt : Option Timestamp
deriving Repr, DecidableEq

/-- Row of the folders table. -/
structure Folder where
  id : String
  name : String
  parentId : Option String
  ownerId : String
  createdAt : Timestamp
  updatedAt : Timestamp
  deletedAt : Option Timestamp
deriving Repr, DecidableEq

/-- Resource type tag used by share links, trash operations and audit
entries: the text values file and folder from the source, modelled as an
enumeration (the routes validate them with a zod enum). -/
inductive ResType where
  | file
  | folder
deriving Repr, DecidableEq

/-- Row of the share-links table. -/
structure ShareLink where
  id : String
  resourceType : ResType
  resourceId : String
  passwordHash : Option String
  expiresAt : Option Timestamp
  allowDownload : Bool
  createdBy : String
  createdAt : Timestamp
deriving Repr, DecidableEq

/-- Row of the audit-logs table.  The free-form JSON meta column carries no
verified content and is not modelled. -/
structure AuditLog where
  id : String
  userId : Option String
  action : String
  targetType : String
  targetId : String
  createdAt : Timestamp
deriving Repr, DecidableEq

/-- The relational state the DatabaseStorage class operates on.  The users
table plays no role in the verified claims beyond owner-id strings and is
not carried. -/
structure Database where
  files : List File
  folders : List Folder
  shareLinks : List ShareLink
  auditLogs : List AuditLog
deriving Repr, DecidableEq

/-! ### Metadata repository (server/storage.ts, class DatabaseStorage) -/

namespace DatabaseStorage

/-- Insert payload for a file row (insertFileSchema plus ownerId). -/
structure InsertFile where
  name : String
  ext : String
  mime : String
  size : Nat
  storageKey : String
  checksum : Option String
  folderId : Option String
deriving Repr, DecidableEq

/-- Insert payload for a folder row (insertFolderSchema plus ownerId). -/
structure InsertFolder where
  name : String
  parentId : Option String
deriving Repr, DecidableEq

/-- Insert payload for a share-link row (insertShareLinkSchema plus
createdBy). -/
structure InsertShareLink where
  resourceType : ResType
  resourceId : String
  passwordHash : Option String
  expiresAt : Option Timestamp
  allowDownload : Bool
deriving Repr, DecidableEq

/-- Partial update accepted by updateFile as the PATCH route calls it:
an optional new name and an optional new folder id. -/
structure FileUpdates where
  name : Option String := none
  folderId : Option String := none
deriving Repr, DecidableEq

/-- Partial update accepted by updateFolder as the PATCH route calls it. -/
structure FolderUpdates where
  name : Option String := none
  parentId : Option String := none
deriving Repr, DecidableEq

/-- Select-where-id-equals on the files table: first matching row. -/
def getFileById (db : Database) (id : String) : Option File :=
  db.files.find? (fun f => f.id == id)

/-- Select-where-id-equals on the folders table: first matching row. -/
def getFolderById (db : Database) (id : String) : Option Folder :=
  db.folders.find? (fun f => f.id == id)

/-- Files listed by parent folder: the drizzle condition is
folderId-truthy conditional between an equality and an is-null test, plus
owner equality and a deleted-at is-null test, ordered by name ascending. -/
def getFilesByFolder (db : Database) (folderId : Option String) (ownerId : String) : List File :=
  (db.files.filter (fun f =>
      (if jsTruthy folderId then f.folderId == folderId else f.folderId == none) &&
      f.ownerId == ownerId &&
      f.deletedAt == none)).mergeSort (fun a b => strLe a.name b.name)

/-- Folders listed by parent folder, same query shape as getFilesByFolder. -/
def getFoldersByParent (db : Database) (parentId : Option String) (ownerId : String) : List Folder :=
  (db.folders.filter (fun f =>
      (if jsTruthy parentId then f.parentId == parentId else f.parentId == none) &&
      f.ownerId == ownerId &&
      f.deletedAt == none)).mergeSort (fun a b => strLe a.name b.name)

/-- Insert into the files table; id and the created/updated timestamps come
from database defaults, deleted-at starts null.  Returns the new row. -/
def createFile (db : Database) (x : InsertFile) (ownerId : String) (id : String)
    (now : Timestamp) : Database × File :=
  let f : File :=
    { id := id, name := x.name, ext := x.ext, mime := x.mime, size := x.size,
      storageKey := x.storageKey, checksum := x.checksum, ownerId := ownerId,
      folderId := x.folderId, createdAt := now, updatedAt := now, deletedAt := none }
  ({ db with files := db.files ++ [f] }, f)

/-- Insert into the folders table. -/
def createFolder (db : Database) (x : InsertFolder) (ownerId : String) (id : String)
    (now : Timestamp) : Database × Folder :=
  let f : Folder :=
    { id := id, name := x.name, parentId := x.parentId, ownerId := ownerId,
      createdAt := now, updatedAt := now, deletedAt := none }
  ({ db with folders := db.folders ++ [f] }, f)

/-- Insert into the share-links table. -/
def createShareLink (db : Database) (x : InsertShareLink) (createdBy : String)
    (id : String) (now : Timestamp) : Database × ShareLink :=
  let s : ShareLink :=
    { id := id, resourceType := x.resourceType, resourceId := x.resourceId,
      passwordHash := x.passwordHash, expiresAt := x.expiresAt,
      allowDownload := x.allowDownload, createdBy := createdBy, createdAt := now }
  ({ db with shareLinks := db.shareLinks ++ [s] }, s)

/-- Insert into the audit-logs table. -/
def createAuditLog (db : Database) (userId : Option String) (action : String)
    (targetType : String) (targetId : String) (id : String) (now : Timestamp) : Database :=
  { db with auditLogs := db.auditLogs ++
      [{ id := id, userId := userId, action := action, targetType := targetType,
         targetId := targetId, createdAt := now }] }

/-- Update-where-id-equals on the files table: the given fields are spread
over the row together with a fresh updated-at timestamp.  Returns the
updated row (the returning clause). -/
def updateFile (db : Database) (id : String) (u : FileUpdates)
    (now : Timestamp) : Database × Option File :=
  let apply := fun (f : File) =>
    if f.id == id then
      { f with
        name := u.name.getD f.name,
        folderId := match u.folderId with | some v => some v | none => f.folderId,
        updatedAt := now }
    else f
  let rows := db.files.map apply
  ({ db with files := rows }, rows.find? (fun f => f.id == id))

/-- Update-where-id-equals on the folders table, as updateFile. -/
def updateFolder (db : Database) (id : String) (u : FolderUpdates)
    (now : Timestamp) : Database × Option Folder :=
  let apply := fun (f : Folder) =>
    if f.id == id then
      { f with
        name := u.name.getD f.name,
        parentId := match u.parentId with | some v => some v | none => f.parentId,
        updatedAt := now }
    else f
  let rows := db.folders.map apply
  ({ db with folders := rows }, rows.find? (fun f => f.id == id))

/-- Soft delete of a file: the update sets only the deleted-at column. -/
def deleteFile (db : Database) (id : String) (now : Timestamp) : Database :=
  { db with files := db.files.map (fun f =>
      if f.id == id then { f with deletedAt := some now } else f) }

/-- Soft delete of a folder: the update sets only the deleted-at column. -/
def deleteFolder (db : Database) (id : String) (now : Timestamp) : Database :=
  { db with folders := db.folders.map (fun f =>
      if f.id == id then { f with deletedAt := some now } else f) }

/-- Name search over the files table: owner equality, deleted-at is-null, a
LIKE substring match on the name, an optional extension equality and an
optional category filter expanding to a fixed extension list, ordered by
name ascending. -/
def searchFiles (db : Database) (query : String) (ownerId : String)
    (extFilter : Option String) (typeFilter : Option String) : List File :=
  let typeExts : Option (List String) :=
    match typeFilter with
    | none => none
    | some t =>
        if t = "image" then some ["jpg", "jpeg", "png", "gif", "webp", "svg"]
        else if t = "video" then some ["mp4", "mov", "avi", "mkv", "webm"]
        else if t = "audio" then some ["mp3", "wav", "ogg", "m4a", "flac"]
        else if t = "document" then some ["pdf", "doc", "docx", "txt", "rtf"]
        else if t = "archive" then some ["zip", "rar", "7z", "tar", "gz"]
        else none
  (db.files.filter (fun f =>
      f.ownerId == ownerId &&
      f.deletedAt == none &&
      strContains f.name query &&
      (match extFilter with | some e => f.ext == e | none => true) &&
      (match typeExts with | some es => es.contains f.ext | none => true))).mergeSort
    (fun a b => strLe a.name b.name)

/-- Trash listing.  In the source the deleted-at clause of both queries is
written as an is-null call compared with triple-equals against the literal
false.  That comparison is between a query-builder object and a boolean,
so in JavaScript it evaluates to the constant false, which is then passed
to the conjunction builder: the WHERE clause becomes owner equality AND a
constant-false condition and keeps no row.  The intended is-not-null test
is never issued. -/
def getTrashItems (db : Database) (ownerId : String) : List File × List Folder :=
  ((db.files.filter (fun f => f.ownerId == ownerId && false)).mergeSort
      (fun a b => optDescLe a.deletedAt b.deletedAt),
   (db.folders.filter (fun f => f.ownerId == ownerId && false)).mergeSort
      (fun a b => optDescLe a.deletedAt b.deletedAt))

/-- Restore from trash: the update clears deleted-at and refreshes the
updated-at column of the addressed row. -/
def restoreFromTrash (db : Database) (id : String) (type : ResType)
    (now : Timestamp) : Database :=
  match type with
  | .file =>
      { db with files := db.files.map (fun f =>
          if f.id == id then { f with deletedAt := none, updatedAt := now } else f) }
  | .folder =>
      { db with folders := db.folders.map (fun f =>
          if f.id == id then { f with deletedAt := none, updatedAt := now } else f) }

/-- Hard delete of the metadata row. -/
def permanentlyDelete (db : Database) (id : String) (type : ResType) : Database :=
  match type with
  | .file => { db with files := db.files.filter (fun f => f.id != id) }
  | .folder => { db with folders := db.folders.filter (fun f => f.id != id) }

end DatabaseStorage

/-! ### Object store adapter (services/s3Service.ts)

Two interchangeable backends sit behind the StorageService interface: the
networked S3 backend and the local-filesystem backend, selected at process
start from the STORAGE_DRIVER environment value.  The backing medium is
modelled as an association of keys to byte strings plus, for the networked
backend, the multipart uploads in flight on the remote store.  Network
faults are modelled by a set of keys whose operations fail. -/

/-- Storage driver selected by the STORAGE_DRIVER configuration value. -/
inductive Driver where
  | s3
  | localFs
deriving Repr, DecidableEq

/-- Errors surfaced by the backing store: a missing key or object, a
rejected multipart completion, a missing multipart upload, or a backend
I/O failure (the StorageUnavailable kind). -/
inductive StoreErr where
  | noSuchKey
  | invalidPart
  | noSuchUpload
  | unavailable
deriving Repr, DecidableEq

/-- A part tag as the complete-multipart call supplies it: an entity tag
and a part number. -/
structure CompletedPart where
  ETag : String
  PartNumber : Nat
deriving Repr, DecidableEq

/-- A multipart upload in flight on the networked store: its id, target key
and content type, and the parts transferred so far as
(part number, entity tag, bytes) triples. -/
structure PendingUpload where
  uploadId : String
  key : String
  contentType : String
  parts : List (Nat × String × Bytes)
deriving Repr, DecidableEq

/-- State of the backing object store.  failingKeys is the fault-injection
set: operations against these keys fail with a backend I/O error. -/
structure ObjectStore where
  objects : List (String × Bytes)
  pending : List PendingUpload
  failingKeys : List String
deriving Repr, DecidableEq

/-- Lookup of a stored object by key. -/
def ObjectStore.lookup (st : ObjectStore) (key : String) : Option Bytes :=
  (st.objects.find? (fun kv => kv.1 == key)).map (fun kv => kv.2)

/-- Write of an object: any object previously at the key is replaced. -/
def ObjectStore.put (st : ObjectStore) (key : String) (b : Bytes) : ObjectStore :=
  { st with objects := (key, b) :: st.objects.filter (fun kv => kv.1 != key) }

/-- Removal of an object by key. -/
def ObjectStore.remove (st : ObjectStore) (key : String) : ObjectStore :=
  { st with objects := st.objects.filter (fun kv => kv.1 != key) }

/-- Entity tag the store assigns to a transferred part, modelled as an
opaque encoding of the part's bytes (a content digest in the real store). -/
def etagOf (b : Bytes) : String := "etag-" ++ toString b

/-- Modelled from the documented contract of the external networked object
store: a client transfer of one part of a multipart upload against its
signed URL.  The store records the part and issues its entity tag. -/
def s3UploadPart (st : ObjectStore) (uploadId : String) (partNumber : Nat)
    (b : Bytes) : Except StoreErr (ObjectStore × String) :=
  match st.pending.find? (fun p => p.uploadId == uploadId) with
  | none => .error .noSuchUpload
  | some p =>
      let p' := { p with parts := p.parts ++ [(partNumber, etagOf b, b)] }
      .ok ({ st with pending :=
              st.pending.map (fun q => if q.uploadId == uploadId then p' else q) },
           etagOf b)

/-- Part numbers of the supplied tag list are strictly ascending. -/
def partsAscending : List CompletedPart → Bool
  | [] => true
  | [_] => true
  | a :: b :: rest => decide (a.PartNumber < b.PartNumber) && partsAscending (b :: rest)

/-- A supplied tag names a part that was actually transferred, with the tag
the store issued for it. -/
def partMatches (p : PendingUpload) (c : CompletedPart) : Bool :=
  p.parts.any (fun t => t.1 == c.PartNumber && t.2.1 == c.ETag)

/-- Bytes of the transferred part with the given number, empty if absent
(guarded by partMatches before use). -/
def partBytes (p : PendingUpload) (n : Nat) : Bytes :=
  match p.parts.find? (fun t => t.1 == n) with
  | some t => t.2.2
  | none => []

/-- Modelled from the documented contract of the external networked object
store: completing a multipart upload.  The store rejects an unknown upload
id, an empty part list, part numbers out of ascending order, and any tag
that does not match a transferred part; otherwise it concatenates the named
parts in the supplied order into the object at the key. -/
def s3CompleteMultipart (st : ObjectStore) (key uploadId : String)
    (parts : List CompletedPart) : Except StoreErr ObjectStore :=
  if key ∈ st.failingKeys then .error .unavailable
  else
    match st.pending.find? (fun p => p.uploadId == uploadId && p.key == key) with
    | none => .error .noSuchUpload
    | some p =>
        if parts.isEmpty then .error .invalidPart
        else if ¬ (partsAscending parts ∧ parts.all (partMatches p)) then
          .error .invalidPart
        else
          let body := (parts.map (fun c => partBytes p c.PartNumber)).flatten
          .ok ({ (st.put key body) with
                 pending := st.pending.filter (fun q => q.uploadId != uploadId) })

namespace StorageService

/-- uploadFile on either backend: a PutObject call on the networked store, a
recursive-mkdir plus writeFile on the local one.  Both replace the bytes at
the key. -/
def uploadFile (_ : Driver) (st : ObjectStore) (key : String) (b : Bytes) : ObjectStore :=
  st.put key b

/-- getFile on either backend: a GetObject call, or a readFile.  Both fail
on a missing key; a key in the fault set fails with a backend error. -/
def getFile (_ : Driver) (st : ObjectStore) (key : String) : Except StoreErr Bytes :=
  if key ∈ st.failingKeys then .error .unavailable
  else
    match st.lookup key with
    | some b => .ok b
    | none => .error .noSuchKey

/-- deleteFile.  The networked DeleteObject call succeeds also when the key
is absent; the local unlink raises on a missing path.  A key in the fault
set fails with a backend error on either driver. -/
def deleteFile (drv : Driver) (st : ObjectStore) (key : String) :
    Except StoreErr ObjectStore :=
  if key ∈ st.failingKeys then .error .unavailable
  else
    match drv with
    | .s3 => .ok (st.remove key)
    | .localFs =>
        match st.lookup key with
        | some _ => .ok (st.remove key)
        | none => .error .noSuchKey

/-- getSignedDownloadUrl: a time-limited signed URL on the networked
backend, a synthesized in-process URL on the local one. -/
def getSignedDownloadUrl (drv : Driver) (key : String) : String :=
  match drv with
  | .s3 => "signed-get:" ++ key
  | .localFs => "/api/files/download/" ++ key

/-- createMultipartUpload.  The networked backend opens a multipart upload
on the store (the store issues the upload id, received here as the fresh
uploadId argument) and signs a URL for each of the fixed ten part numbers.
The local backend only synthesizes an upload id and ten local part URLs;
nothing is recorded. -/
def createMultipartUpload (drv : Driver) (st : ObjectStore) (key : String)
    (contentType : String) (uploadId : String) :
    ObjectStore × String × List String :=
  match drv with
  | .s3 =>
      let p : PendingUpload :=
        { uploadId := uploadId, key := key, contentType := contentType, parts := [] }
      ({ st with pending := st.pending ++ [p] },
       uploadId,
       (List.range 10).map (fun i =>
          "signed-part:" ++ key ++ ":" ++ toString (i + 1) ++ ":" ++ uploadId))
  | .localFs =>
      (st, uploadId,
       (List.range 10).map (fun i =>
          "/api/upload/local/" ++ key ++ "/part/" ++ toString (i + 1) ++
            "?uploadId=" ++ uploadId))

/-- completeMultipartUpload.  The networked backend forwards the supplied
tags to the store's complete call and propagates its rejection; the local
backend's implementation is empty (the source comments that local storage
does not need multipart completion) and always succeeds without touching
the store. -/
def completeMultipartUpload (drv : Driver) (st : ObjectStore) (key uploadId : String)
    (parts : List CompletedPart) : Except StoreErr ObjectStore :=
  match drv with
  | .s3 => s3CompleteMultipart st key uploadId parts
  | .localFs => .ok st

end StorageService

/-! ### Upload coordinator and lifecycle manager (services/fileService.ts) -/

/-- Combined system state the file service operates on: the metadata
database and the backing object store. -/
structure SysState where
  db : Database
  store : ObjectStore
deriving Repr, DecidableEq

/-- Values the runtime generates during one file-service call: the database
id of a new file row, the random UUID used inside the storage key, the
multipart upload id, and the id of the audit row. -/
structure Fresh where
  fileId : String := ""
  uuid : String := ""
  uploadId : String := ""
  auditId : String := ""
deriving Repr, DecidableEq

/-- Calendar date used by storage-key derivation. -/
structure DateParts where
  year : Nat
  month : Nat
  day : Nat
deriving Repr, DecidableEq

/-- Errors thrown by the file service: the file-not-found and unauthorized
errors it raises itself, and a propagated store failure. -/
inductive Err where
  | notFound
  | unauthorized
  | storage (e : StoreErr)
deriving Repr, DecidableEq

/-- Observable effects of a file-service call, recorded in order: calls
into the object store and writes against the metadata tables. -/
inductive Event where
  | storageDelete (key : String)
  | storagePut (key : String)
  | dbRemoveFile (id : String)
  | dbSoftDeleteFile (id : String)
  | audit (action : String)
deriving Repr, DecidableEq

/-- Result shape of the upload entry points. -/
structure FileUploadResult where
  fileId : String
  storageKey : String
deriving Repr, DecidableEq

/-- Result shape of upload initialization. -/
structure UploadInitResponse where
  uploadId : String
  presignedUrls : List String
  fileId : String
deriving Repr, DecidableEq

namespace FileService

/-- Storage-key derivation: owner id, dash-free date path, random UUID and
the original extension, joined with slashes. -/
def generateStorageKey (ownerId filename : String) (d : DateParts)
    (uuid : String) : String :=
  ownerId ++ "/" ++ toString d.year ++ "/" ++ pad2 d.month ++ "/" ++ pad2 d.day ++
    "/" ++ uuid ++ extname filename

/-- Content checksum, a SHA-256 hex digest in the source, modelled as an
opaque injective encoding of the input bytes. -/
def calculateChecksum (b : Bytes) : String := "sha256-" ++ toString b

/-- Extension-to-MIME table from the source, consulted with the lower-cased
extension and falling back to the generic binary type. -/
def getMimeTypeFromExtension (ext : String) : String :=
  let mimeTypes : List (String × String) :=
    [(".jpg", "image/jpeg"), (".jpeg", "image/jpeg"), (".png", "image/png"),
     (".gif", "image/gif"), (".webp", "image/webp"), (".svg", "image/svg+xml"),
     (".mp4", "video/mp4"), (".mov", "video/quicktime"), (".avi", "video/x-msvideo"),
     (".mkv", "video/x-matroska"), (".webm", "video/webm"),
     (".mp3", "audio/mpeg"), (".wav", "audio/wav"), (".ogg", "audio/ogg"),
     (".m4a", "audio/mp4"), (".flac", "audio/flac"),
     (".pdf", "application/pdf"), (".doc", "application/msword"),
     (".docx", "application/vnd.openxmlformats-officedocument.wordprocessingml.document"),
     (".txt", "text/plain"), (".rtf", "application/rtf"),
     (".zip", "application/zip"), (".rar", "application/vnd.rar"),
     (".7z", "application/x-7z-compressed"), (".tar", "application/x-tar"),
     (".gz", "application/gzip"),
     (".js", "text/javascript"), (".ts", "text/typescript"),
     (".tsx", "text/typescript"), (".jsx", "text/javascript"),
     (".html", "text/html"), (".css", "text/css"), (".json", "application/json")]
  match mimeTypes.find? (fun kv => kv.1 == asciiLower ext) with
  | some kv => kv.2
  | none => "application/octet-stream"

/-- initializeUpload: derives extension, MIME and storage key, inserts the
provisional file row with the declared size and no checksum, opens the
multipart transfer on the store adapter, and appends the audit entry. -/
def initializeUpload (drv : Driver) (filename : String) (size : Nat)
    (ownerId : String) (folderId : Option String) (fr : Fresh) (d : DateParts)
    (now : Timestamp) (s : SysState) : UploadInitResponse × SysState :=
  let ext := extname filename
  let mime := getMimeTypeFromExtension ext
  let storageKey := generateStorageKey ownerId filename d fr.uuid
  let ins : DatabaseStorage.InsertFile :=
    { name := basenameWithoutExt filename ext, ext := ext.drop 1, mime := mime,
      size := size, storageKey := storageKey, checksum := none,
      folderId := optNorm folderId }
  let (db1, file) := DatabaseStorage.createFile s.db ins ownerId fr.fileId now
  let (store1, uploadId, urls) :=
    StorageService.createMultipartUpload drv s.store storageKey mime fr.uploadId
  let db2 := DatabaseStorage.createAuditLog db1 (some ownerId)
    "file_upload_initiated" "file" file.id fr.auditId now
  ({ uploadId := uploadId, presignedUrls := urls, fileId := file.id },
   { db := db2, store := store1 })

/-- completeUpload: looks the provisional row up (file-not-found error when
absent), asks the store adapter to finalize the multipart upload with the
supplied tags, propagating its failure, then appends the audit entry.  The
file row is not touched: neither size nor checksum is re-verified. -/
def completeUpload (drv : Driver) (fileId uploadId : String)
    (parts : List CompletedPart) (auditId : String) (now : Timestamp)
    (s : SysState) : Except Err (FileUploadResult × SysState) :=
  match DatabaseStorage.getFileById s.db fileId with
  | none => .error .notFound
  | some file =>
      match StorageService.completeMultipartUpload drv s.store file.storageKey
          uploadId parts with
      | .error e => .error (.storage e)
      | .ok store1 =>
          let db1 := DatabaseStorage.createAuditLog s.db (some file.ownerId)
            "file_uploaded" "file" file.id auditId now
          .ok ({ fileId := file.id, storageKey := file.storageKey },
               { db := db1, store := store1 })

/-- uploadLocal, the single-shot direct path: derives key, MIME and
checksum, writes the buffer to the store, inserts the finalized file row
whose size is the buffer's byte length, and appends the audit entry. -/
def uploadLocal (drv : Driver) (filename : String) (buffer : Bytes)
    (ownerId : String) (folderId : Option String) (fr : Fresh) (d : DateParts)
    (now : Timestamp) (s : SysState) : FileUploadResult × SysState :=
  let ext := extname filename
  let mime := getMimeTypeFromExtension ext
  let storageKey := generateStorageKey ownerId filename d fr.uuid
  let checksum := calculateChecksum buffer
  let store1 := StorageService.uploadFile drv s.store storageKey buffer
  let ins : DatabaseStorage.InsertFile :=
    { name := basenameWithoutExt filename ext, ext := ext.drop 1, mime := mime,
      size := buffer.length, storageKey := storageKey, checksum := some checksum,
      folderId := optNorm folderId }
  let (db1, file) := DatabaseStorage.createFile s.db ins ownerId fr.fileId now
  let db2 := DatabaseStorage.createAuditLog db1 (some ownerId) "file_uploaded"
    "file" file.id fr.auditId now
  ({ fileId := file.id, storageKey := file.storageKey },
   { db := db2, store := store1 })

/-- getDownloadUrl: looks the file up and asks the adapter to sign a
download URL for its storage key. -/
def getDownloadUrl (drv : Driver) (fileId : String) (db : Database) :
    Except Err String :=
  match DatabaseStorage.getFileById db fileId with
  | none => .error .notFound
  | some file => .ok (StorageService.getSignedDownloadUrl drv file.storageKey)

/-- Service-level soft delete: existence and ownership checks, the
metadata soft delete, and the audit entry.  No store call is made; the
event trace records the effects in order. -/
def deleteFile (fileId ownerId : String) (auditId : String) (now : Timestamp)
    (s : SysState) : Except Err (SysState × List Event) :=
  match DatabaseStorage.getFileById s.db fileId with
  | none => .error .notFound
  | some file =>
      if file.ownerId ≠ ownerId then .error .unauthorized
      else
        let db1 := DatabaseStorage.deleteFile s.db fileId now
        let db2 := DatabaseStorage.createAuditLog db1 (some ownerId)
          "file_deleted" "file" fileId auditId now
        .ok ({ db := db2, store := s.store },
             [Event.dbSoftDeleteFile fileId, Event.audit "file_deleted"])

/-- Service-level purge: existence and ownership checks, then the store
deletion attempt whose failure is logged and swallowed, then the hard
metadata delete, then the audit entry.  The event trace records the
attempt order. -/
def permanentlyDeleteFile (drv : Driver) (fileId ownerId : String)
    (auditId : String) (now : Timestamp) (s : SysState) :
    Except Err (SysState × List Event) :=
  match DatabaseStorage.getFileById s.db fileId with
  | none => .error .notFound
  | some file =>
      if file.ownerId ≠ ownerId then .error .unauthorized
      else
        let store1 :=
          match StorageService.deleteFile drv s.store file.storageKey with
          | .ok st => st
          | .error _ => s.store
        let db1 := DatabaseStorage.permanentlyDelete s.db fileId .file
        let db2 := DatabaseStorage.createAuditLog db1 (some ownerId)
          "file_permanently_deleted" "file" fileId auditId now
        .ok ({ db := db2, store := store1 },
             [Event.storageDelete file.storageKey, Event.dbRemoveFile fileId,
              Event.audit "file_permanently_deleted"])

end FileService

/-! ### Route handlers (server/routes.ts, registerRoutes)

Each handler is modelled from the point where the request body has been
received and the session middleware has established the acting user; the
zod validations the handler performs are carried out explicitly, and the
HTTP statuses it responds with become the route error kind. -/

/-- HTTP failure kinds the route handlers respond with: 400 invalid input,
404 not found, 403 unauthorized, 500 internal error. -/
inductive RouteErr where
  | badRequest
  | notFound
  | unauthorized
  | serverError
deriving Repr, DecidableEq

/-- SHA-256 hex digest of a share password, modelled as an opaque injective
encoding of the input. -/
def sha256Hex (s : String) : String := "sha256-" ++ s

/-- Zod check on a folder or file name: a string of one to 255 characters. -/
def nameValid (s : String) : Bool := 1 ≤ s.length && s.length ≤ 255

/-- Zod check on an optional name field: valid when absent or valid. -/
def optNameValid : Option String → Bool
  | some n => nameValid n
  | none => true

namespace Routes

/-- POST api folders: validates the name, inserts the folder with the
or-else-null parent and the acting user as owner, and appends the audit
entry.  No check is made against the parent folder. -/
def createFolder (userId : String) (name : String) (parentId : Option String)
    (folderId auditId : String) (now : Timestamp) (db : Database) :
    Except RouteErr (Database × Folder) :=
  if ¬ nameValid name then .error .badRequest
  else
    let (db1, folder) := DatabaseStorage.createFolder db
      { name := name, parentId := optNorm parentId } userId folderId now
    let db2 := DatabaseStorage.createAuditLog db1 (some userId) "folder_created"
      "folder" folder.id auditId now
    .ok (db2, folder)

/-- PATCH api folders id: validates the optional name, requires the
addressed folder to exist and belong to the acting user, applies the
update and appends the audit entry.  The new parent id is not checked. -/
def patchFolder (userId : String) (id : String) (u : DatabaseStorage.FolderUpdates)
    (auditId : String) (now : Timestamp) (db : Database) :
    Except RouteErr (Database × Option Folder) :=
  if ¬ optNameValid u.name then
    .error .badRequest
  else
    match DatabaseStorage.getFolderById db id with
    | none => .error .notFound
    | some folder =>
        if folder.ownerId ≠ userId then .error .notFound
        else
          let (db1, updated) := DatabaseStorage.updateFolder db id u now
          let db2 := DatabaseStorage.createAuditLog db1 (some userId)
            "folder_updated" "folder" id auditId now
          .ok (db2, updated)

/-- GET api files id: metadata fetch, requiring existence and ownership and
returning the row as stored. -/
def fileMeta (userId : String) (id : String) (db : Database) :
    Except RouteErr File :=
  match DatabaseStorage.getFileById db id with
  | none => .error .notFound
  | some file =>
      if file.ownerId ≠ userId then .error .notFound
      else .ok file

/-- PATCH api files id: validates the optional name, requires existence and
ownership, applies the rename or move update and appends the audit entry. -/
def patchFile (userId : String) (id : String) (u : DatabaseStorage.FileUpdates)
    (auditId : String) (now : Timestamp) (db : Database) :
    Except RouteErr (Database × Option File) :=
  if ¬ optNameValid u.name then
    .error .badRequest
  else
    match DatabaseStorage.getFileById db id with
    | none => .error .notFound
    | some file =>
        if file.ownerId ≠ userId then .error .notFound
        else
          let (db1, updated) := DatabaseStorage.updateFile db id u now
          let db2 := DatabaseStorage.createAuditLog db1 (some userId)
            "file_updated" "file" id auditId now
          .ok (db2, updated)

/-- Response of the download route: a redirect to a signed URL on the
networked driver, a streamed body with content type and the declared
length header on the local driver. -/
inductive DownloadResp where
  | redirect (url : String)
  | stream (body : Bytes) (contentType : String) (contentLength : Nat)
deriving Repr, DecidableEq

/-- GET api files id download: requires existence and ownership; on the
networked driver redirects to the signed URL, on the local driver reads
the object and streams it (a read failure surfaces as a 500); afterwards
appends the audit entry. -/
def download (drv : Driver) (userId : String) (id : String) (auditId : String)
    (now : Timestamp) (s : SysState) : Except RouteErr (DownloadResp × Database) :=
  match DatabaseStorage.getFileById s.db id with
  | none => .error .notFound
  | some file =>
      if file.ownerId ≠ userId then .error .notFound
      else
        let audited := DatabaseStorage.createAuditLog s.db (some userId)
          "file_downloaded" "file" id auditId now
        match drv with
        | .s3 =>
            .ok (.redirect (StorageService.getSignedDownloadUrl .s3 file.storageKey),
                 audited)
        | .localFs =>
            match StorageService.getFile .localFs s.store file.storageKey with
            | .error _ => .error .serverError
            | .ok body => .ok (.stream body file.mime file.size, audited)

/-- Request body of the share-creation route after zod validation: the
resource type enum, the resource id, the optional expiry, the optional
password and the allow-download flag (defaulted to true by the schema). -/
structure ShareReq where
  resourceType : ResType
  resourceId : String
  expiresAt : Option Timestamp := none
  password : Option String := none
  allowDownload : Bool := true
deriving Repr, DecidableEq

/-- POST api shares: hashes the password when one is given (the truthiness
test skips an empty string), inserts the share-link row for the requested
resource with the acting user as creator, and appends the audit entry.
The handler performs no lookup of the referenced resource: neither its
existence nor its ownership is checked. -/
def createShare (userId : String) (req : ShareReq) (shareId auditId : String)
    (now : Timestamp) (db : Database) : Except RouteErr (Database × ShareLink) :=
  let passwordHash : Option String :=
    match req.password with
    | some p => if p ≠ "" then some (sha256Hex p) else none
    | none => none
  let (db1, link) := DatabaseStorage.createShareLink db
    { resourceType := req.resourceType, resourceId := req.resourceId,
      passwordHash := passwordHash, expiresAt := req.expiresAt,
      allowDownload := req.allowDownload } userId shareId now
  let db2 := DatabaseStorage.createAuditLog db1 (some userId)
    "share_link_created" (match req.resourceType with
      | .file => "file" | .folder => "folder") req.resourceId auditId now
  .ok (db2, link)

end Routes

/-! ### Specification-side query description

For the listing claim the spec's words are rendered as a second, clearly
separated definition, to be compared with the repository queries embedded
above: a row belongs to the listing exactly when it has the requested
parent, the requesting owner and no deleted-at marker. -/

/-- Spec-side membership predicate for file listings. -/
def specFileInList (pid : Option String) (uid : String) (f : File) : Bool :=
  f.folderId == pid && f.ownerId == uid && f.deletedAt == none

/-- Spec-side membership predicate for folder listings. -/
def specFolderInList (pid : Option String) (uid : String) (f : Folder) : Bool :=
  f.parentId == pid && f.ownerId == uid && f.deletedAt == none

/-! ### Concrete fixtures used by witnesses and counterexamples -/

/-- A file row with the given id, name, owner, parent folder and deleted-at
marker and fixed remaining attributes. -/
def mkFile (id name ownerId : String) (folderId : Option String)
    (deletedAt : Option Timestamp) : File :=
  { id := id, name := name, ext := "txt", mime := "text/plain", size := 3,
    storageKey := "key-" ++ id, checksum := none, ownerId := ownerId,
    folderId := folderId, createdAt := 1, updatedAt := 1, deletedAt := deletedAt }

/-- A folder row with the given id, name, parent, owner and deleted-at
marker. -/
def mkFolder (id name : String) (parentId : Option String) (ownerId : String)
    (deletedAt : Option Timestamp) : Folder :=
  { id := id, name := name, parentId := parentId, ownerId := ownerId,
    createdAt := 1, updatedAt := 1, deletedAt := deletedAt }

/-- Empty database. -/
def emptyDb : Database := { files := [], folders := [], shareLinks := [], auditLogs := [] }

/-- Empty object store with no fault injection. -/
def emptyStore : ObjectStore := { objects := [], pending := [], failingKeys := [] }

/-- Listing fixture: two owners, same parent id, same display names, one
soft-deleted row of each kind, one root-level file. -/
def dbListing : Database :=
  { files :=
      [ mkFile "f1" "beta" "alice" (some "p") none,
        mkFile "f2" "alpha" "alice" (some "p") none,
        mkFile "f3" "gamma" "alice" (some "p") (some 5),
        mkFile "f4" "alpha" "bob" (some "p") none,
        mkFile "f5" "root" "alice" none none ],
    folders :=
      [ mkFolder "d1" "zeta" (some "p") "alice" none,
        mkFolder "d2" "acorn" (some "p") "alice" none,
        mkFolder "d3" "mid" (some "p") "bob" none,
        mkFolder "d4" "gone" (some "p") "alice" (some 9) ],
    shareLinks := [], auditLogs := [] }

/-- Purge fixture: one file owned by the purging user whose storage key is
in the fault set, so the storage deletion fails. -/
def purgeState : SysState :=
  { db := { emptyDb with files := [mkFile "pf" "doomed" "carol" none (some 7)] },
    store := { objects := [("key-pf", [1, 2, 3])], pending := [],
               failingKeys := ["key-pf"] } }

/-- Multipart-size fixture, step 0: empty system. -/
def mpState0 : SysState := { db := emptyDb, store := emptyStore }

/-- Multipart-size fixture, step 1: upload of report.pdf initialized with a
declared size of 1000 bytes on the networked driver. -/
def mpInit : UploadInitResponse × SysState :=
  FileService.initializeUpload .s3 "report.pdf" 1000 "alice" none
    { fileId := "F1", uuid := "U1", uploadId := "MP1", auditId := "A1" }
    { year := 2024, month := 5, day := 7 } 100 mpState0

/-- Multipart-size fixture: the derived storage key of the upload. -/
def mpKey : String := "alice/2024/05/07/U1.pdf"

/-- Multipart-size fixture, step 2: the client transfers a single part of
five bytes against the signed URL. -/
def mpTransferred : SysState :=
  { db := mpInit.2.db,
    store :=
      match s3UploadPart mpInit.2.store "MP1" 1 [9, 9, 9, 9, 9] with
      | .ok (st, _) => st
      | .error _ => mpInit.2.store }

/-- Multipart-size fixture, step 3: completion with the collected tag. -/
def mpFinal : Except Err (FileUploadResult × SysState) :=
  FileService.completeUpload .s3 "F1" "MP1"
    [{ ETag := etagOf [9, 9, 9, 9, 9], PartNumber := 1 }] "A2" 200 mpTransferred

/-- Round-trip fixture: an active file. -/
def rtFile : File := mkFile "rt" "doc" "dave" none none

/-- Round-trip fixture database. -/
def rtDb : Database := { emptyDb with files := [rtFile] }

/-- Trash-listing fixture: one soft-deleted file owned by the queried user. -/
def trashDb : Database :=
  { emptyDb with files := [mkFile "t1" "old" "erin" none (some 40)] }

/-- Cross-owner nesting fixture: one folder owned by alice, one folder
owned by bob that bob will move. -/
def nestDb : Database :=
  { emptyDb with folders :=
      [ mkFolder "p1" "docs" none "alice" none,
        mkFolder "b1" "mine" none "bob" none ] }

/-- Local-completion fixture: a provisional file row on the local driver;
the supplied parts are out of ascending order and carry tags no transfer
produced. -/
def localMpState : SysState :=
  { db := { emptyDb with files := [mkFile "l1" "big" "fred" none none] },
    store := emptyStore }

/-- Out-of-order, unmatched part list used against the local backend. -/
def badParts : List CompletedPart :=
  [{ ETag := "bogus-2", PartNumber := 2 }, { ETag := "bogus-1", PartNumber := 1 }]

/-- Soft-delete frame fixture: one active file with an object in the store,
plus an unrelated row of another owner. -/
def frameState : SysState :=
  { db := { emptyDb with
      files := [mkFile "sf" "keepme" "gina" none none,
                mkFile "other" "hers" "hana" none none],
      folders := [mkFolder "sd" "folder" none "gina" none] },
    store := { objects := [("key-sf", [7, 8])], pending := [], failingKeys := [] } }

/-- Trashed-file access fixture: a soft-deleted file with its object still
stored. -/
def trashedAccess : SysState :=
  { db := { emptyDb with files := [mkFile "ta" "ghost" "ivy" none (some 55)] },
    store := { objects := [("key-ta", [4, 5, 6])], pending := [], failingKeys := [] } }

/-- The provisional file row created by the multipart fixture's
initialization. -/
def mpFileRec : File :=
  { id := "F1", name := "report", ext := "pdf", mime := "application/pdf",
    size := 1000, storageKey := mpKey, checksum := none, ownerId := "alice",
    folderId := none, createdAt := 100, updatedAt := 100, deletedAt := none }

/-- The pending multipart upload of the fixture after the five-byte part
transfer. -/
def mpPending : PendingUpload :=
  { uploadId := "MP1", key := mpKey, contentType := "application/pdf",
    parts := [(1, etagOf [9, 9, 9, 9, 9], [9, 9, 9, 9, 9])] }

/-! ### Helper lemmas -/

theorem charListLe_trans : ∀ as bs cs : List Char,
    charListLe as bs = true → charListLe bs cs = true → charListLe as cs = true := by
  intro as
  induction as with
  | nil => intro bs cs _ _; rfl
  | cons a as ih =>
    intro bs cs h1 h2
    cases bs with
    | nil => simp [charListLe] at h1
    | cons b bs =>
      cases cs with
      | nil => simp [charListLe] at h2
      | cons c cs =>
        simp only [charListLe] at h1 h2 ⊢
        by_cases hab : a.toNat = b.toNat
        · by_cases hbc : b.toNat = c.toNat
          · rw [if_pos hab] at h1
            rw [if_pos hbc] at h2
            rw [if_pos (hab.trans hbc)]
            exact ih bs cs h1 h2
          · rw [if_pos hab] at h1
            rw [if_neg hbc] at h2
            have hlt : b.toNat < c.toNat := of_decide_eq_true h2
            rw [if_neg (by omega)]
            exact decide_eq_true (by omega)
        · by_cases hbc : b.toNat = c.toNat
          · rw [if_neg hab] at h1
            have hlt : a.toNat < b.toNat := of_decide_eq_true h1
            rw [if_neg (by omega)]
            exact decide_eq_true (by omega)
          · rw [if_neg hab] at h1
            rw [if_neg hbc] at h2
            have hlt1 : a.toNat < b.toNat := of_decide_eq_true h1
            have hlt2 : b.toNat < c.toNat := of_decide_eq_true h2
            rw [if_neg (by omega)]
            exact decide_eq_true (by omega)

theorem charListLe_total : ∀ as bs : List Char,
    (charListLe as bs || charListLe bs as) = true := by
  intro as
  induction as with
  | nil => intro bs; simp [charListLe]
  | cons a as ih =>
    intro bs
    cases bs with
    | nil => simp [charListLe]
    | cons b bs =>
      simp only [charListLe]
      by_cases hab : a.toNat = b.toNat
      · rw [if_pos hab, if_pos hab.symm]
        exact ih bs
      · rw [if_neg hab, if_neg (fun h => hab h.symm)]
        rcases Nat.lt_or_ge a.toNat b.toNat with h | h
        · simp [decide_eq_true h]
        · have : b.toNat < a.toNat := by omega
          simp [decide_eq_true this]

theorem strLe_trans (x y z : String) (h1 : strLe x y = true) (h2 : strLe y z = true) :
    strLe x z = true :=
  charListLe_trans x.data y.data z.data h1 h2

theorem strLe_total (x y : String) : (strLe x y || strLe y x) = true :=
  charListLe_total x.data y.data

theorem find?_map_id_file (l : List File) (h : File → File)
    (hid : ∀ f, (h f).id = f.id) (i : String) :
    (l.map h).find? (fun f => f.id == i) = (l.find? (fun f => f.id == i)).map h := by
  induction l with
  | nil => rfl
  | cons f t ih =>
    by_cases hp : (f.id == i) = true
    · have hp' : ((h f).id == i) = true := by rw [hid f]; exact hp
      rw [List.map_cons,
        List.find?_cons_of_pos (p := fun f : File => f.id == i) _ hp',
        List.find?_cons_of_pos (p := fun f : File => f.id == i) _ hp]
      rfl
    · have hp' : ¬ ((h f).id == i) = true := by rw [hid f]; exact hp
      rw [List.map_cons,
        List.find?_cons_of_neg (p := fun f : File => f.id == i) _ hp',
        List.find?_cons_of_neg (p := fun f : File => f.id == i) _ hp]
      exact ih

theorem find?_of_mem_unique_file (l : List File) (f : File) (i : String)
    (hmem : f ∈ l) (hfi : f.id = i) (huniq : ∀ g ∈ l, g.id = i → g = f) :
    l.find? (fun g => g.id == i) = some f := by
  induction l with
  | nil => cases hmem
  | cons g t ih =>
    by_cases hg : (g.id == i) = true
    · rw [List.find?_cons_of_pos (p := fun g : File => g.id == i) _ hg]
      have : g = f := huniq g (List.mem_cons_self g t) (by simpa using hg)
      rw [this]
    · rw [List.find?_cons_of_neg (p := fun g : File => g.id == i) _ hg]
      have hmem' : f ∈ t := by
        rcases List.mem_cons.mp hmem with rfl | hm
        · exact absurd (by simpa using hfi) hg
        · exact hm
      exact ih hmem' (fun x hx hxi => huniq x (List.mem_cons_of_mem g hx) hxi)

theorem lookup_put (st : ObjectStore) (k : String) (b : Bytes) :
    (st.put k b).lookup k = some b := by
  simp [ObjectStore.put, ObjectStore.lookup]

/-! ### C1 — purge: storage deletion attempted first, metadata always removed -/

/-- C1: for every purge of a file by its owner, the deletion of the storage
object is attempted before the metadata row is removed — the event trace
lists the store call first — and the metadata row is removed whatever the
store state and whatever the outcome of the storage deletion, whose error
is swallowed and never propagated: the call still returns success and no
row with the purged id remains. -/
theorem purge_storage_first_metadata_always
    (drv : Driver) (s : SysState) (fileId ownerId auditId : String)
    (now : Timestamp) (f : File)
    (hf : DatabaseStorage.getFileById s.db fileId = some f)
    (hown : f.ownerId = ownerId) :
    ∃ s2 : SysState,
      FileService.permanentlyDeleteFile drv fileId ownerId auditId now s =
        .ok (s2, [Event.storageDelete f.storageKey, Event.dbRemoveFile fileId,
                  Event.audit "file_permanently_deleted"]) ∧
      (∀ g ∈ s2.db.files, g.id ≠ fileId) := by
  unfold FileService.permanentlyDeleteFile
  rw [hf]
  dsimp only
  rw [if_neg (by simp [hown])]
  refine ⟨_, rfl, ?_⟩
  intro g hg hcontra
  simp only [DatabaseStorage.createAuditLog, DatabaseStorage.permanentlyDelete] at hg
  rw [List.mem_filter] at hg
  have := hg.2
  simp [hcontra] at this

/-- C1 witness: a concrete purge in a state whose storage deletion fails
(the key is in the fault set), applied to the theorem. -/
theorem purge_storage_first_metadata_always_witness :
    DatabaseStorage.getFileById purgeState.db "pf" =
      some (mkFile "pf" "doomed" "carol" none (some 7)) ∧
    (mkFile "pf" "doomed" "carol" none (some 7)).ownerId = "carol" ∧
    ∃ s2 : SysState,
      FileService.permanentlyDeleteFile .localFs "pf" "carol" "aud" 99 purgeState =
        .ok (s2, [Event.storageDelete (mkFile "pf" "doomed" "carol" none (some 7)).storageKey,
                  Event.dbRemoveFile "pf", Event.audit "file_permanently_deleted"]) ∧
      (∀ g ∈ s2.db.files, g.id ≠ "pf") :=
  ⟨by decide, by decide,
   purge_storage_first_metadata_always .localFs purgeState "pf" "carol" "aud" 99
     (mkFile "pf" "doomed" "carol" none (some 7)) (by decide) (by decide)⟩

/-! ### C9 — soft delete is a pure deleted-at frame update -/

/-- C9: soft-deleting a file or folder sets only the deleted-at field — the
transformed table is the pointwise update writing deleted-at and nothing
else, so name, size, storage key and in particular updated-at are
untouched — other tables are untouched, the object store is untouched and
the service call makes no storage call (its event trace holds only the
metadata write and the audit entry). -/
theorem softDelete_only_sets_deletedAt
    (s : SysState) (fileId ownerId auditId : String) (now : Timestamp) (f : File)
    (hf : DatabaseStorage.getFileById s.db fileId = some f)
    (hown : f.ownerId = ownerId)
    (db : Database) (folderId : String) :
    (∃ s2,
      FileService.deleteFile fileId ownerId auditId now s =
        .ok (s2, [Event.dbSoftDeleteFile fileId, Event.audit "file_deleted"]) ∧
      s2.store = s.store ∧
      s2.db.files = s.db.files.map (fun g =>
        if g.id = fileId then { g with deletedAt := some now } else g) ∧
      s2.db.folders = s.db.folders ∧
      s2.db.shareLinks = s.db.shareLinks) ∧
    (DatabaseStorage.deleteFolder db folderId now).folders =
      db.folders.map (fun g =>
        if g.id = folderId then { g with deletedAt := some now } else g) ∧
    (∀ g : File,
      ({ g with deletedAt := some now } : File).updatedAt = g.updatedAt ∧
      ({ g with deletedAt := some now } : File).name = g.name ∧
      ({ g with deletedAt := some now } : File).size = g.size ∧
      ({ g with deletedAt := some now } : File).storageKey = g.storageKey) ∧
    (∀ g : Folder,
      ({ g with deletedAt := some now } : Folder).updatedAt = g.updatedAt ∧
      ({ g with deletedAt := some now } : Folder).name = g.name ∧
      ({ g with deletedAt := some now } : Folder).parentId = g.parentId) := by
  refine ⟨?_, ?_, fun g => ⟨rfl, rfl, rfl, rfl⟩, fun g => ⟨rfl, rfl, rfl⟩⟩
  · unfold FileService.deleteFile
    rw [hf]
    dsimp only
    rw [if_neg (by simp [hown])]
    refine ⟨_, rfl, rfl, ?_, rfl, rfl⟩
    simp only [DatabaseStorage.createAuditLog, DatabaseStorage.deleteFile]
    simp only [beq_iff_eq]
  · simp only [DatabaseStorage.deleteFolder]
    simp only [beq_iff_eq]

/-- C9 witness: the concrete frame fixture, applied to the theorem. -/
theorem softDelete_only_sets_deletedAt_witness :
    DatabaseStorage.getFileById frameState.db "sf" =
      some (mkFile "sf" "keepme" "gina" none none) ∧
    (mkFile "sf" "keepme" "gina" none none).ownerId = "gina" ∧
    ((∃ s2,
      FileService.deleteFile "sf" "gina" "aud9" 77 frameState =
        .ok (s2, [Event.dbSoftDeleteFile "sf", Event.audit "file_deleted"]) ∧
      s2.store = frameState.store ∧
      s2.db.files = frameState.db.files.map (fun g =>
        if g.id = "sf" then { g with deletedAt := some 77 } else g) ∧
      s2.db.folders = frameState.db.folders ∧
      s2.db.shareLinks = frameState.db.shareLinks) ∧
    (DatabaseStorage.deleteFolder frameState.db "sd" 77).folders =
      frameState.db.folders.map (fun g =>
        if g.id = "sd" then { g with deletedAt := some 77 } else g) ∧
    (∀ g : File,
      ({ g with deletedAt := some 77 } : File).updatedAt = g.updatedAt ∧
      ({ g with deletedAt := some 77 } : File).name = g.name ∧
      ({ g with deletedAt := some 77 } : File).size = g.size ∧
      ({ g with deletedAt := some 77 } : File).storageKey = g.storageKey) ∧
    (∀ g : Folder,
      ({ g with deletedAt := some 77 } : Folder).updatedAt = g.updatedAt ∧
      ({ g with deletedAt := some 77 } : Folder).name = g.name ∧
      ({ g with deletedAt := some 77 } : Folder).parentId = g.parentId)) :=
  ⟨by decide, by decide,
   softDelete_only_sets_deletedAt frameState "sf" "gina" "aud9" 77
     (mkFile "sf" "keepme" "gina" none none) (by decide) (by decide)
     frameState.db "sd"⟩

/-! ### C10 — per-id operations ignore the soft-delete marker -/

/-- C10: a soft-deleted file is still returned by the by-id lookup, and the
owner's per-id operations — metadata fetch, rename or move update, and
download on either driver — succeed on it just as on an active file, while
the by-parent listing and the search queries never return it. -/
theorem trashed_file_per_id_ops_succeed
    (s : SysState) (id uid auditId : String) (now : Timestamp) (f : File)
    (hmem : f ∈ s.db.files) (hid : f.id = id)
    (huniq : ∀ g ∈ s.db.files, g.id = id → g = f)
    (hown : f.ownerId = uid) (t : Timestamp) (htrash : f.deletedAt = some t) :
    DatabaseStorage.getFileById s.db id = some f ∧
    Routes.fileMeta uid id s.db = .ok f ∧
    (∀ u : DatabaseStorage.FileUpdates, optNameValid u.name = true →
       ∃ db2 r, Routes.patchFile uid id u auditId now s.db = .ok (db2, r)) ∧
    (∃ db2, Routes.download .s3 uid id auditId now s =
       .ok (.redirect (StorageService.getSignedDownloadUrl .s3 f.storageKey), db2)) ∧
    (∀ body, StorageService.getFile .localFs s.store f.storageKey = .ok body →
       ∃ db2, Routes.download .localFs uid id auditId now s =
         .ok (.stream body f.mime f.size, db2)) ∧
    (∀ pid : Option String, f ∉ DatabaseStorage.getFilesByFolder s.db pid uid) ∧
    (∀ q ef tf, f ∉ DatabaseStorage.searchFiles s.db q uid ef tf) := by
  have hfind : DatabaseStorage.getFileById s.db id = some f :=
    find?_of_mem_unique_file _ _ _ hmem hid huniq
  refine ⟨hfind, ?_, ?_, ?_, ?_, ?_, ?_⟩
  · unfold Routes.fileMeta
    rw [hfind]
    dsimp only
    rw [if_neg (by simp [hown])]
  · intro u hu
    unfold Routes.patchFile
    rw [if_neg (by simp [hu]), hfind]
    dsimp only
    rw [if_neg (by simp [hown])]
    exact ⟨_, _, rfl⟩
  · unfold Routes.download
    rw [hfind]
    dsimp only
    rw [if_neg (by simp [hown])]
    exact ⟨_, rfl⟩
  · intro body hbody
    unfold Routes.download
    rw [hfind]
    dsimp only
    rw [if_neg (by simp [hown]), hbody]
    exact ⟨_, rfl⟩
  · intro pid hmem2
    have h1 := List.mem_mergeSort.mp hmem2
    rw [List.mem_filter] at h1
    have h2 := h1.2
    simp [htrash] at h2
  · intro q ef tf hmem2
    have h1 := List.mem_mergeSort.mp hmem2
    rw [List.mem_filter] at h1
    have h2 := h1.2
    simp [htrash] at h2

/-- C10 witness: the concrete soft-deleted file fixture, applied to the
theorem. -/
theorem trashed_file_per_id_ops_succeed_witness :
    (mkFile "ta" "ghost" "ivy" none (some 55)) ∈ trashedAccess.db.files ∧
    (∀ g ∈ trashedAccess.db.files, g.id = "ta" →
       g = mkFile "ta" "ghost" "ivy" none (some 55)) ∧
    (mkFile "ta" "ghost" "ivy" none (some 55)).ownerId = "ivy" ∧
    (mkFile "ta" "ghost" "ivy" none (some 55)).deletedAt = some 55 ∧
    (DatabaseStorage.getFileById trashedAccess.db "ta" =
      some (mkFile "ta" "ghost" "ivy" none (some 55)) ∧
    Routes.fileMeta "ivy" "ta" trashedAccess.db =
      .ok (mkFile "ta" "ghost" "ivy" none (some 55)) ∧
    (∀ u : DatabaseStorage.FileUpdates, optNameValid u.name = true →
       ∃ db2 r, Routes.patchFile "ivy" "ta" u "au" 60 trashedAccess.db = .ok (db2, r)) ∧
    (∃ db2, Routes.download .s3 "ivy" "ta" "au" 60 trashedAccess =
       .ok (.redirect (StorageService.getSignedDownloadUrl .s3
              (mkFile "ta" "ghost" "ivy" none (some 55)).storageKey), db2)) ∧
    (∀ body, StorageService.getFile .localFs trashedAccess.store
         (mkFile "ta" "ghost" "ivy" none (some 55)).storageKey = .ok body →
       ∃ db2, Routes.download .localFs "ivy" "ta" "au" 60 trashedAccess =
         .ok (.stream body (mkFile "ta" "ghost" "ivy" none (some 55)).mime
                (mkFile "ta" "ghost" "ivy" none (some 55)).size, db2)) ∧
    (∀ pid : Option String,
       (mkFile "ta" "ghost" "ivy" none (some 55)) ∉
         DatabaseStorage.getFilesByFolder trashedAccess.db pid "ivy") ∧
    (∀ q ef tf, (mkFile "ta" "ghost" "ivy" none (some 55)) ∉
       DatabaseStorage.searchFiles trashedAccess.db q "ivy" ef tf)) :=
  ⟨by decide, by decide, by decide, by decide,
   trashed_file_per_id_ops_succeed trashedAccess "ta" "ivy" "au" 60
     (mkFile "ta" "ghost" "ivy" none (some 55)) (by decide) (by decide) (by decide)
     (by decide) 55 (by decide)⟩

/-! ### C5 — soft delete then restore: refuted as stated, amended round trip -/

/-- C5 counterexample: soft-deleting the active round-trip fixture file at
time 20 and restoring it at time 30 does not return the original record —
the restore writes a fresh updated-at timestamp — so the round trip is not
the identity on every other field as the claim states; the divergence is
exactly the updated-at field. -/
theorem softDelete_restore_not_identical_counterexample :
    rtFile.deletedAt = none ∧
    DatabaseStorage.getFileById
        (DatabaseStorage.restoreFromTrash
          (DatabaseStorage.deleteFile rtDb "rt" 20) "rt" .file 30) "rt" ≠
      some rtFile ∧
    DatabaseStorage.getFileById
        (DatabaseStorage.restoreFromTrash
          (DatabaseStorage.deleteFile rtDb "rt" 20) "rt" .file 30) "rt" =
      some { rtFile with updatedAt := 30 } := by
  refine ⟨by decide, by decide, by decide⟩

theorem find?_roundtrip_file (l : List File) (id : String) (t1 t2 : Timestamp)
    (f : File) (hf : l.find? (fun g => g.id == id) = some f) :
    ((l.map (fun g => if g.id == id then { g with deletedAt := some t1 } else g)).map
        (fun g => if g.id == id then { g with deletedAt := none, updatedAt := t2 } else g)).find?
      (fun g => g.id == id) =
      some { f with deletedAt := none, updatedAt := t2 } := by
  rw [find?_map_id_file, find?_map_id_file, hf]
  · have hp : (f.id == id) = true :=
      List.find?_some (p := fun g : File => g.id == id) hf
    have hp' : f.id = id := by simpa using hp
    simp [hp']
  · intro g
    by_cases hg : (g.id == id) = true <;> simp [hg]
  · intro g
    by_cases hg : (g.id == id) = true <;> simp [hg]

/-- C5 amended: soft-deleting an active file and then restoring it yields a
record identical to the original in every field except that deleted-at is
cleared (back to its original null) and updated-at is refreshed to the
restore time. -/
theorem softDelete_restore_roundtrip_amended
    (db : Database) (id : String) (t1 t2 : Timestamp) (f : File)
    (hf : DatabaseStorage.getFileById db id = some f)
    (hactive : f.deletedAt = none) :
    DatabaseStorage.getFileById
        (DatabaseStorage.restoreFromTrash
          (DatabaseStorage.deleteFile db id t1) id .file t2) id =
      some { f with updatedAt := t2 } := by
  have hf' : db.files.find? (fun g => g.id == id) = some f := hf
  have h := find?_roundtrip_file db.files id t1 t2 f hf'
  unfold DatabaseStorage.getFileById DatabaseStorage.restoreFromTrash
    DatabaseStorage.deleteFile
  dsimp only
  rw [h]
  cases f
  simp only at hactive
  subst hactive
  rfl

/-- C5 amended witness: the concrete round trip at times 20 and 30, applied
to the amended theorem. -/
theorem softDelete_restore_roundtrip_amended_witness :
    DatabaseStorage.getFileById rtDb "rt" = some rtFile ∧
    rtFile.deletedAt = none ∧
    DatabaseStorage.getFileById
        (DatabaseStorage.restoreFromTrash
          (DatabaseStorage.deleteFile rtDb "rt" 20) "rt" .file 30) "rt" =
      some { rtFile with updatedAt := 30 } :=
  ⟨by decide, by decide,
   softDelete_restore_roundtrip_amended rtDb "rt" 20 30 rtFile (by decide) (by decide)⟩

/-! ### C3 — listing by parent is exact, owner-scoped and name-ordered -/

/-- C3: for any parent (or null for the root) and owner, the by-parent file
and folder queries return exactly the rows with that owner, that parent
and no deleted-at marker — a permutation of the spec-side filter — in
ascending display-name order, and every returned row belongs to the owner
and is not soft-deleted, so no foreign row and no trashed row ever
appears.  The parent id, when present, is a nonempty string (ids are
UUIDs; the routes collapse an empty parent parameter to null). -/
theorem listByParent_exact
    (db : Database) (pid : Option String) (uid : String) (hpid : pid ≠ some "") :
    ((DatabaseStorage.getFilesByFolder db pid uid).Perm
        (db.files.filter (specFileInList pid uid)) ∧
     (DatabaseStorage.getFilesByFolder db pid uid).Pairwise
        (fun a b => strLe a.name b.name = true) ∧
     (∀ f ∈ DatabaseStorage.getFilesByFolder db pid uid,
        f ∈ db.files ∧ f.folderId = pid ∧ f.ownerId = uid ∧ f.deletedAt = none)) ∧
    ((DatabaseStorage.getFoldersByParent db pid uid).Perm
        (db.folders.filter (specFolderInList pid uid)) ∧
     (DatabaseStorage.getFoldersByParent db pid uid).Pairwise
        (fun a b => strLe a.name b.name = true) ∧
     (∀ f ∈ DatabaseStorage.getFoldersByParent db pid uid,
        f ∈ db.folders ∧ f.parentId = pid ∧ f.ownerId = uid ∧ f.deletedAt = none)) := by
  have hcondf : ∀ f ∈ db.files,
      ((if jsTruthy pid then f.folderId == pid else f.folderId == none) &&
        f.ownerId == uid && f.deletedAt == none) = specFileInList pid uid f := by
    intro f _
    rcases pid with _ | p
    · simp [jsTruthy, specFileInList]
    · have hp : ¬ p = "" := fun h => hpid (by rw [h])
      simp [jsTruthy, specFileInList, hp]
  have hcondd : ∀ f ∈ db.folders,
      ((if jsTruthy pid then f.parentId == pid else f.parentId == none) &&
        f.ownerId == uid && f.deletedAt == none) = specFolderInList pid uid f := by
    intro f _
    rcases pid with _ | p
    · simp [jsTruthy, specFolderInList]
    · have hp : ¬ p = "" := fun h => hpid (by rw [h])
      simp [jsTruthy, specFolderInList, hp]
  constructor
  · refine ⟨?_, ?_, ?_⟩
    · unfold DatabaseStorage.getFilesByFolder
      rw [List.filter_congr hcondf]
      exact List.mergeSort_perm _ _
    · unfold DatabaseStorage.getFilesByFolder
      exact List.sorted_mergeSort
        (fun a b c h1 h2 => strLe_trans a.name b.name c.name h1 h2)
        (fun a b => strLe_total a.name b.name) _
    · intro f hf
      unfold DatabaseStorage.getFilesByFolder at hf
      rw [List.mem_mergeSort, List.mem_filter] at hf
      obtain ⟨hmem, hcond⟩ := hf
      rw [hcondf f hmem] at hcond
      simp [specFileInList] at hcond
      exact ⟨hmem, hcond.1.1, hcond.1.2, hcond.2⟩
  · refine ⟨?_, ?_, ?_⟩
    · unfold DatabaseStorage.getFoldersByParent
      rw [List.filter_congr hcondd]
      exact List.mergeSort_perm _ _
    · unfold DatabaseStorage.getFoldersByParent
      exact List.sorted_mergeSort
        (fun a b c h1 h2 => strLe_trans a.name b.name c.name h1 h2)
        (fun a b => strLe_total a.name b.name) _
    · intro f hf
      unfold DatabaseStorage.getFoldersByParent at hf
      rw [List.mem_mergeSort, List.mem_filter] at hf
      obtain ⟨hmem, hcond⟩ := hf
      rw [hcondd f hmem] at hcond
      simp [specFolderInList] at hcond
      exact ⟨hmem, hcond.1.1, hcond.1.2, hcond.2⟩

/-- C3 witness: the two-owner fixture with a shared parent id, shared
display names and soft-deleted rows of both kinds, applied to the theorem. -/
theorem listByParent_exact_witness :
    (some "p" ≠ some ("" : String)) ∧
    (((DatabaseStorage.getFilesByFolder dbListing (some "p") "alice").Perm
        (dbListing.files.filter (specFileInList (some "p") "alice")) ∧
     (DatabaseStorage.getFilesByFolder dbListing (some "p") "alice").Pairwise
        (fun a b => strLe a.name b.name = true) ∧
     (∀ f ∈ DatabaseStorage.getFilesByFolder dbListing (some "p") "alice",
        f ∈ dbListing.files ∧ f.folderId = some "p" ∧ f.ownerId = "alice" ∧
          f.deletedAt = none)) ∧
    ((DatabaseStorage.getFoldersByParent dbListing (some "p") "alice").Perm
        (dbListing.folders.filter (specFolderInList (some "p") "alice")) ∧
     (DatabaseStorage.getFoldersByParent dbListing (some "p") "alice").Pairwise
        (fun a b => strLe a.name b.name = true) ∧
     (∀ f ∈ DatabaseStorage.getFoldersByParent dbListing (some "p") "alice",
        f ∈ dbListing.folders ∧ f.parentId = some "p" ∧ f.ownerId = "alice" ∧
          f.deletedAt = none))) :=
  ⟨by decide, listByParent_exact dbListing (some "p") "alice" (by decide)⟩

/-! ### C2 — record size versus stored byte length -/

/-- C2 counterexample: a multipart upload initialized with a declared size
of 1000 bytes completes successfully after the client transferred a single
five-byte part; the finalized record keeps size 1000 under its storage key
while the object stored under that key holds five bytes, so after this
completed upload the size field does not equal the stored byte length. -/
theorem multipart_size_not_stored_length_counterexample :
    (mpFinal.toOption.map (fun x =>
       ((DatabaseStorage.getFileById x.2.db "F1").map File.size,
        (DatabaseStorage.getFileById x.2.db "F1").map File.storageKey,
        (x.2.store.lookup mpKey).map List.length))) =
      some (some 1000, some mpKey, some 5) ∧
    (1000 : Nat) ≠ 5 := by
  exact ⟨by decide, by decide⟩

/-- C2 amended: on the direct path the created record's size equals the
byte length of the object stored under its storage key; on the multipart
path the provisional record carries the declared size and no checksum, and
completion never touches the file rows, so the record keeps the declared
size, which is not verified against the stored bytes. -/
theorem upload_size_amended :
    (∀ (drv : Driver) (filename : String) (buffer : Bytes) (ownerId : String)
       (folderId : Option String) (fr : Fresh) (d : DateParts) (now : Timestamp)
       (s : SysState),
      ∃ f : File,
        (FileService.uploadLocal drv filename buffer ownerId folderId fr d now s).2.db.files
          = s.db.files ++ [f] ∧
        f.size = buffer.length ∧
        f.storageKey =
          (FileService.uploadLocal drv filename buffer ownerId folderId fr d now s).1.storageKey ∧
        ((FileService.uploadLocal drv filename buffer ownerId folderId fr d now s).2.store.lookup
            f.storageKey).map List.length = some f.size) ∧
    (∀ (drv : Driver) (filename : String) (size : Nat) (ownerId : String)
       (folderId : Option String) (fr : Fresh) (d : DateParts) (now : Timestamp)
       (s : SysState),
      ∃ f : File,
        (FileService.initializeUpload drv filename size ownerId folderId fr d now s).2.db.files
          = s.db.files ++ [f] ∧
        f.size = size ∧ f.checksum = none ∧
        f.id = (FileService.initializeUpload drv filename size ownerId folderId fr d now s).1.fileId) ∧
    (∀ (drv : Driver) (fid up : String) (parts : List CompletedPart)
       (aid : String) (now : Timestamp) (s : SysState) (r : FileUploadResult)
       (s2 : SysState),
      FileService.completeUpload drv fid up parts aid now s = .ok (r, s2) →
      s2.db.files = s.db.files) := by
  refine ⟨?_, ?_, ?_⟩
  · intro drv filename buffer ownerId folderId fr d now s
    unfold FileService.uploadLocal
    dsimp only
    refine ⟨_, rfl, rfl, rfl, ?_⟩
    simp only [StorageService.uploadFile]
    rw [lookup_put]
    rfl
  · intro drv filename size ownerId folderId fr d now s
    unfold FileService.initializeUpload
    dsimp only
    exact ⟨_, rfl, rfl, rfl, rfl⟩
  · intro drv fid up parts aid now s r s2 h
    unfold FileService.completeUpload at h
    rcases hfind : DatabaseStorage.getFileById s.db fid with _ | file
    · rw [hfind] at h
      exact absurd h (by simp)
    · rw [hfind] at h
      dsimp only at h
      rcases hstore : StorageService.completeMultipartUpload drv s.store
          file.storageKey up parts with e | st
      · rw [hstore] at h
        exact absurd h (by simp)
      · rw [hstore] at h
        dsimp only at h
        simp only [Except.ok.injEq, Prod.mk.injEq] at h
        obtain ⟨-, rfl⟩ := h
        rfl

/-- C2 amended witness: the direct path at a three-byte buffer, the
multipart path of the fixture, and the fixture's completed upload, each
applied to the corresponding part of the amended theorem. -/
theorem upload_size_amended_witness :
    (∃ f : File,
      (FileService.uploadLocal .localFs "a.txt" [1, 2, 3] "u" none
          { fileId := "Fa", uuid := "Ua", uploadId := "Ma", auditId := "Aa" }
          { year := 2024, month := 1, day := 2 } 10 mpState0).2.db.files
        = mpState0.db.files ++ [f] ∧
      f.size = ([1, 2, 3] : Bytes).length ∧
      f.storageKey =
        (FileService.uploadLocal .localFs "a.txt" [1, 2, 3] "u" none
          { fileId := "Fa", uuid := "Ua", uploadId := "Ma", auditId := "Aa" }
          { year := 2024, month := 1, day := 2 } 10 mpState0).1.storageKey ∧
      ((FileService.uploadLocal .localFs "a.txt" [1, 2, 3] "u" none
          { fileId := "Fa", uuid := "Ua", uploadId := "Ma", auditId := "Aa" }
          { year := 2024, month := 1, day := 2 } 10 mpState0).2.store.lookup
          f.storageKey).map List.length = some f.size) ∧
    (∃ f : File,
      mpInit.2.db.files = mpState0.db.files ++ [f] ∧
      f.size = 1000 ∧ f.checksum = none ∧ f.id = mpInit.1.fileId) ∧
    (∃ r s2, mpFinal = .ok (r, s2) ∧ s2.db.files = mpTransferred.db.files) := by
  refine ⟨upload_size_amended.1 .localFs "a.txt" [1, 2, 3] "u" none
      { fileId := "Fa", uuid := "Ua", uploadId := "Ma", auditId := "Aa" }
      { year := 2024, month := 1, day := 2 } 10 mpState0,
    upload_size_amended.2.1 .s3 "report.pdf" 1000 "alice" none
      { fileId := "F1", uuid := "U1", uploadId := "MP1", auditId := "A1" }
      { year := 2024, month := 5, day := 7 } 100 mpState0,
    ?_⟩
  rcases hm : mpFinal with e | ⟨r, s2⟩
  · have hok : mpFinal.isOk = true := by decide
    rw [hm] at hok
    simp [Except.isOk, Except.toBool] at hok
  · exact ⟨r, s2, rfl,
      upload_size_amended.2.2 .s3 "F1" "MP1"
        [{ ETag := etagOf [9, 9, 9, 9, 9], PartNumber := 1 }] "A2" 200
        mpTransferred r s2 hm⟩

/-! ### C8 — part validation on completion, per backend -/

/-- C8 counterexample: on the local backend completeMultipartUpload is an
empty no-op, so a completion whose part list is out of ascending order and
whose tags match no transferred part still succeeds — the completion does
not fail on both backends as the claim states. -/
theorem local_complete_accepts_bad_parts_counterexample :
    partsAscending badParts = false ∧
    (FileService.completeUpload .localFs "l1" "up8" badParts "au8" 5
        localMpState).isOk = true := by
  exact ⟨by decide, by decide⟩

/-- C8 amended: on the networked backend a completion whose parts are out
of ascending order or carry a tag that matches no transferred part is
rejected by the store and the failure propagates out of completeUpload; on
the local backend completeMultipartUpload is a no-op, so any completion of
an existing file succeeds and leaves the store untouched. -/
theorem completeUpload_validation_amended :
    (∀ (s : SysState) (fid up aid : String) (parts : List CompletedPart)
       (now : Timestamp) (file : File) (p : PendingUpload),
      DatabaseStorage.getFileById s.db fid = some file →
      s.store.pending.find?
        (fun q => q.uploadId == up && q.key == file.storageKey) = some p →
      (partsAscending parts = false ∨ parts.all (partMatches p) = false) →
      ∃ e, FileService.completeUpload .s3 fid up parts aid now s =
        .error (.storage e)) ∧
    (∀ (s : SysState) (fid up aid : String) (parts : List CompletedPart)
       (now : Timestamp) (file : File),
      DatabaseStorage.getFileById s.db fid = some file →
      ∃ r s2, FileService.completeUpload .localFs fid up parts aid now s =
        .ok (r, s2) ∧ s2.store = s.store) := by
  constructor
  · intro s fid up aid parts now file p hfile hpend hbad
    unfold FileService.completeUpload
    rw [hfile]
    dsimp only
    unfold StorageService.completeMultipartUpload s3CompleteMultipart
    dsimp only
    by_cases hfail : file.storageKey ∈ s.store.failingKeys
    · rw [if_pos hfail]
      exact ⟨.unavailable, rfl⟩
    · rw [if_neg hfail, hpend]
      dsimp only
      by_cases hemp : parts.isEmpty = true
      · rw [if_pos hemp]
        exact ⟨.invalidPart, rfl⟩
      · rw [if_neg hemp]
        have hcond : ¬ (partsAscending parts = true ∧
            parts.all (partMatches p) = true) := by
          rcases hbad with h | h
          · intro hc
            rw [hc.1] at h
            cases h
          · intro hc
            rw [hc.2] at h
            cases h
        rw [if_pos hcond]
        exact ⟨.invalidPart, rfl⟩
  · intro s fid up aid parts now file hfile
    unfold FileService.completeUpload
    rw [hfile]
    dsimp only
    unfold StorageService.completeMultipartUpload
    dsimp only
    exact ⟨_, _, rfl, rfl⟩

/-- C8 amended witness: the networked fixture with its transferred part and
an out-of-order unmatched part list, and the local fixture, each applied
to the corresponding part of the amended theorem. -/
theorem completeUpload_validation_amended_witness :
    DatabaseStorage.getFileById mpTransferred.db "F1" = some mpFileRec ∧
    mpTransferred.store.pending.find?
      (fun q => q.uploadId == "MP1" && q.key == mpFileRec.storageKey) =
        some mpPending ∧
    partsAscending badParts = false ∧
    (∃ e, FileService.completeUpload .s3 "F1" "MP1" badParts "ax" 300 mpTransferred =
       .error (.storage e)) ∧
    DatabaseStorage.getFileById localMpState.db "l1" =
      some (mkFile "l1" "big" "fred" none none) ∧
    (∃ r s2, FileService.completeUpload .localFs "l1" "upx" badParts "ay" 9
        localMpState = .ok (r, s2) ∧ s2.store = localMpState.store) :=
  ⟨by decide, by decide, by decide,
   completeUpload_validation_amended.1 mpTransferred "F1" "MP1" "ax" badParts 300
     mpFileRec mpPending (by decide) (by decide) (Or.inl (by decide)),
   by decide,
   completeUpload_validation_amended.2 localMpState "l1" "upx" "ay" badParts 9
     (mkFile "l1" "big" "fred" none none) (by decide)⟩

/-! ### C7 — cross-owner folder nesting -/

/-- C7 counterexample: bob creates a folder whose parent is alice's folder;
the creation route accepts the request and persists the cross-owner
nesting — it does not reject it with invalid input, and the resulting
folder violates the claimed same-owner parent invariant. -/
theorem cross_owner_nesting_accepted_counterexample :
    (DatabaseStorage.getFolderById nestDb "p1").map Folder.ownerId = some "alice" ∧
    ((Routes.createFolder "bob" "stuff" (some "p1") "d9" "a9" 60 nestDb).toOption.map
       (fun x => (x.2.parentId, x.2.ownerId))) = some (some "p1", "bob") := by
  exact ⟨by decide, by decide⟩

/-- C7 amended: neither folder creation nor folder move validates the
parent reference — with a valid name, creation under any existing parent
folder of a different owner succeeds and persists that parent, and moving
an owned folder under a different owner's folder succeeds and writes that
parent; the same-owner parent invariant is not enforced. -/
theorem folder_nesting_unvalidated_amended :
    (∀ (userId name pid fid aid : String) (now : Timestamp) (db : Database)
       (p : Folder),
      nameValid name = true →
      DatabaseStorage.getFolderById db pid = some p → p.ownerId ≠ userId →
      ∃ db2 f, Routes.createFolder userId name (some pid) fid aid now db =
          .ok (db2, f) ∧
        f.parentId = optNorm (some pid) ∧ f.ownerId = userId ∧ f ∈ db2.folders) ∧
    (∀ (userId mid pid aid : String) (now : Timestamp) (db : Database)
       (m p : Folder),
      DatabaseStorage.getFolderById db mid = some m → m.ownerId = userId →
      DatabaseStorage.getFolderById db pid = some p → p.ownerId ≠ userId →
      ∃ db2 r, Routes.patchFolder userId mid { parentId := some pid } aid now db =
          .ok (db2, r) ∧
        (∀ g ∈ db2.folders, g.id = mid → g.parentId = some pid)) := by
  constructor
  · intro userId name pid fid aid now db p hname hp hcross
    unfold Routes.createFolder
    rw [if_neg (by simp [hname])]
    dsimp only
    refine ⟨_, _, rfl, rfl, rfl, ?_⟩
    simp [DatabaseStorage.createFolder, DatabaseStorage.createAuditLog]
  · intro userId mid pid aid now db m p hm hmo hp hcross
    unfold Routes.patchFolder
    rw [if_neg (by simp [optNameValid])]
    rw [hm]
    dsimp only
    rw [if_neg (by simp [hmo])]
    refine ⟨_, _, rfl, ?_⟩
    intro g hg hgid
    simp only [DatabaseStorage.createAuditLog, DatabaseStorage.updateFolder] at hg
    obtain ⟨g0, hg0, rfl⟩ := List.mem_map.mp hg
    by_cases h0 : (g0.id == mid) = true
    · simp [h0]
    · simp [h0] at hgid ⊢
      exact absurd (by simpa using hgid) (by simpa using h0)

/-- C7 amended witness: the concrete two-owner fixture — bob creating
under alice's folder and bob moving his folder under alice's folder —
applied to the amended theorem. -/
theorem folder_nesting_unvalidated_amended_witness :
    nameValid "stuff" = true ∧
    DatabaseStorage.getFolderById nestDb "p1" =
      some (mkFolder "p1" "docs" none "alice" none) ∧
    (mkFolder "p1" "docs" none "alice" none).ownerId ≠ "bob" ∧
    (∃ db2 f, Routes.createFolder "bob" "stuff" (some "p1") "d9" "a9" 60 nestDb =
        .ok (db2, f) ∧
      f.parentId = optNorm (some "p1") ∧ f.ownerId = "bob" ∧ f ∈ db2.folders) ∧
    DatabaseStorage.getFolderById nestDb "b1" =
      some (mkFolder "b1" "mine" none "bob" none) ∧
    (mkFolder "b1" "mine" none "bob" none).ownerId = "bob" ∧
    (∃ db2 r, Routes.patchFolder "bob" "b1" { parentId := some "p1" } "a10" 61 nestDb =
        .ok (db2, r) ∧
      (∀ g ∈ db2.folders, g.id = "b1" → g.parentId = some "p1")) :=
  ⟨by decide, by decide, by decide,
   folder_nesting_unvalidated_amended.1 "bob" "stuff" "p1" "d9" "a9" 60 nestDb
     (mkFolder "p1" "docs" none "alice" none) (by decide) (by decide) (by decide),
   by decide, by decide,
   folder_nesting_unvalidated_amended.2 "bob" "b1" "p1" "a10" 61 nestDb
     (mkFolder "b1" "mine" none "bob" none) (mkFolder "p1" "docs" none "alice" none)
     (by decide) (by decide) (by decide) (by decide)⟩

/-! ### C4 — share-link creation without resource validation -/

/-- C4 counterexample: in a database holding no files and no folders,
alice's request to share the nonexistent file ghost succeeds and a
share-link record referencing ghost is created, where the claim demands a
not-found or unauthorized failure and no record. -/
theorem share_created_without_resource_counterexample :
    DatabaseStorage.getFileById emptyDb "ghost" = none ∧
    DatabaseStorage.getFolderById emptyDb "ghost" = none ∧
    ((Routes.createShare "alice" { resourceType := .file, resourceId := "ghost" }
        "S1" "A1" 50 emptyDb).toOption.map
      (fun x => (x.1.shareLinks.length, x.2.resourceId, x.2.createdBy))) =
      some (1, "ghost", "alice") := by
  exact ⟨by decide, by decide, by decide⟩

/-- C4 amended: share-link creation performs no existence or ownership
check of the referenced resource — every creation request by an
authenticated user succeeds, appending a share-link record that carries
the requested resource type and id and the acting user as creator. -/
theorem createShare_no_resource_check_amended
    (userId : String) (req : Routes.ShareReq) (shareId auditId : String)
    (now : Timestamp) (db : Database) :
    ∃ db2 link,
      Routes.createShare userId req shareId auditId now db = .ok (db2, link) ∧
      db2.shareLinks = db.shareLinks ++ [link] ∧
      link.resourceType = req.resourceType ∧
      link.resourceId = req.resourceId ∧
      link.createdBy = userId := by
  unfold Routes.createShare
  dsimp only
  refine ⟨_, _, rfl, ?_, rfl, rfl, rfl⟩
  simp [DatabaseStorage.createShareLink, DatabaseStorage.createAuditLog]

/-! ### C6 — trash listing returns nothing -/

/-- C6, evaluating the code at the failing input: the owner erin has one
soft-deleted file, which the intended is-not-null filter selects, yet
getTrashItems returns empty file and folder lists — the deleted-at clause
is the JavaScript triple-equals comparison of a query-builder object with
false, a constant-false condition, so no trash is ever listed. -/
theorem getTrashItems_returns_nothing_bug :
    (trashDb.files.filter (fun f => f.ownerId == "erin" && f.deletedAt != none)) =
      [mkFile "t1" "old" "erin" none (some 40)] ∧
    DatabaseStorage.getTrashItems trashDb "erin" = ([], []) := by
  refine ⟨by decide, ?_⟩
  unfold DatabaseStorage.getTrashItems
  have h1 : trashDb.files.filter (fun f => f.ownerId == "erin" && false) = [] := by
    decide
  have h2 : trashDb.folders.filter (fun f => f.ownerId == "erin" && false) = [] := by
    decide
  rw [h1, h2, List.mergeSort_nil, List.mergeSort_nil]

end VaultWeb
